import Mathlib

/-!
Verification of the owllang/ella playground execution pipeline
(`src/runner.rs` and `src/app.rs`).

The repository contains two pipeline entry points:
* `runner.rs`: the web-worker agent (`Runner`) whose `run` function builds
  the builtin registry, bootstraps a fresh VM, compiles and interprets the
  submitted source, and streams output through `report_output` /
  `report_errors` callbacks; and
* `app.rs`: an older in-app copy of `run` that registers only `println`
  and `clock`.

The language crates (`ella_parser`, `ella_passes`, `ella_vm`, `ella_value`)
are external dependencies consumed as black boxes; where a claim depends on
their behaviour we model the contract stated in the specification and say
so in the corresponding doc comment.
-/

namespace Ella

/-- The runtime value type of the ella VM (`ella_value::Value`, external
crate).  Modelled from the spec: a tagged union over Number, Bool and
String; the numeric payload is abstracted to `Int` (the claims under
verification do not depend on float semantics). -/
inductive Value where
  | Number (n : Int)
  | Bool (b : Bool)
  | Str (s : String)
deriving DecidableEq

/-- Modelled from the spec: the Display rendering of a `Value`, consumed
opaquely by `println` via `format!("[STDOUT] {}\n", arg)`.  The exact
rendering lives in the external `ella_value` crate; any computable function
would do for the claims below. -/
def fmtValue : Value → String
  | Value.Number n => toString n
  | Value.Bool b => toString b
  | Value.Str s => s

/-- Result of `Vm::interpret` (`ella_vm::vm::InterpretResult`, external
crate).  `runner.rs` matches on `InterpretResult::RuntimeError { message,
line }` and `app.rs` compares against `InterpretResult::Ok`; these are the
two variants the playground distinguishes. -/
inductive InterpretResult where
  | Ok
  | RuntimeError (message : String) (line : Nat)
deriving DecidableEq

/-- The declared type language of builtin signatures
(`ella_value::{BuiltinType, UniqueType}`): `UniqueType::Any` and
`BuiltinType::{Bool, Number, String, Fn}` are the forms used in
`runner.rs` lines 56-105. -/
inductive Ty where
  | any
  | bool
  | number
  | string
  | fn (params : List Ty) (ret : Ty)

/-- The builtin registry (`ella_value::BuiltinVars`): an ordered sequence
of (name, arity, declared signature) entries, in registration order. -/
abbrev BuiltinVars := List (String × Nat × Ty)

/-- `BuiltinVars::new()`: the empty registry. -/
def BuiltinVars.new : BuiltinVars := []

/-- `BuiltinVars::add_native_fn(name, f, arity, ty)`: appends one entry.
The native function pointer itself is not part of the model; name, arity
and signature are what resolve/type-check/codegen consume. -/
def BuiltinVars.add_native_fn (bv : BuiltinVars) (name : String) (arity : Nat) (ty : Ty) :
    BuiltinVars :=
  bv ++ [(name, arity, ty)]

/-- The registry built by `run` in `runner.rs` (lines 56-105): the five
`add_native_fn` calls in source order, with the exact arities and
signatures written there. -/
def runnerBuiltinVars : BuiltinVars :=
  ((((
    BuiltinVars.new.add_native_fn "println" 1 (Ty.fn [Ty.any] Ty.bool)
    ).add_native_fn "is_nan" 1 (Ty.fn [Ty.number] Ty.bool)
    ).add_native_fn "parse_number" 1 (Ty.fn [Ty.any] Ty.number)
    ).add_native_fn "clock" 0 (Ty.fn [] Ty.number)
    ).add_native_fn "str" 1 (Ty.fn [Ty.any] Ty.string)

/-- The registry built by the older `run` in `app.rs` (lines 60-61):
`add_native_fn("println", native_println, 1)` and
`add_native_fn("clock", &native_clock, 0)` only, with no type signatures
(that version of `add_native_fn` takes no type argument). -/
def appBuiltinVars : List (String × Nat) :=
  [("println", 1), ("clock", 0)]

/-- The body of the `native_println` closure (`runner.rs` lines 45-55).
Input: the VM-supplied argument slice, the current contents of the shared
output buffer, and whether the weak `report_output` reference upgrades.
Output: `none` when the slice is empty (the Rust `&args[0]` indexing would
panic there); otherwise the new buffer contents, the text delivered to the
callback (if any), and the returned `Value`. -/
def native_println (args : List Value) (output : String) (alive : Bool) :
    Option (String × Option String × Value) :=
  match args with
  | [] => none
  | arg :: _ =>
    let out := output ++ ("[STDOUT] " ++ (fmtValue arg ++ "\n"))
    some (out, if alive then some out else none, Value.Bool true)

/-- Events on the `Vm` instance created inside `run` (`runner.rs` lines
116-140), in the order the source performs them: `Vm::new(&builtin_vars)`
(line 116), `vm.interpret` of the bootstrap chunk (line 119), codegen of
the user chunk (lines 135-139) and `vm.interpret` of the user chunk (line
140). -/
inductive EngineEvent where
  | vmCreated
  | bootstrapInterpreted
  | userCodegen
  | userInterpreted
deriving DecidableEq, BEq

/-- The black-box outcomes of one invocation of `run` that are decided by
the external language crates: whether `source.has_no_errors()` holds after
parse/resolve/type-check (line 134), the text `format!("{}", source)`
would render (line 156), the sequence of arguments the user chunk passes
to `println` while the VM interprets it, the `InterpretResult` of the user
chunk (line 140), the liveness of the weak `report_output` reference at
each successive upgrade attempt, and the rendered `format!("{:.3}", end -
start)` duration. -/
structure RunEnv where
  hasNoErrors : Bool
  errorsString : String
  printlnArgs : List Value
  result : InterpretResult
  aliveAt : Nat → Bool
  durationStr : String

/-- The sequence of `native_println` invocations performed while the VM
interprets the user chunk: each call runs the closure body of
`native_println` (`runner.rs` lines 46-54) on the current buffer, with the
weak-reference upgrade at call `k` answered by `aliveAt k`.  Returns the
final buffer and the list of texts delivered to `report_output`, in
order. -/
def printlnCalls : List Value → (Nat → Bool) → Nat → String → String × List String
  | [], _, _, buf => (buf, [])
  | v :: vs, aliveAt, k, buf =>
    let out := buf ++ ("[STDOUT] " ++ (fmtValue v ++ "\n"))
    let rest := printlnCalls vs aliveAt (k + 1) out
    if aliveAt k then (rest.1, out :: rest.2) else rest

/-- The response enum sent back through the worker boundary
(`runner.rs` lines 171-175). -/
inductive RunResult where
  | Stdout (text : String)
  | Error (text : String)
deriving DecidableEq

/-- Whether a response is the `Error` variant. -/
def RunResult.isError : RunResult → Bool
  | RunResult.Error _ => true
  | RunResult.Stdout _ => false

/-- The text of a `Stdout` response, if it is one. -/
def RunResult.stdoutText : RunResult → Option String
  | RunResult.Stdout t => some t
  | RunResult.Error _ => none

/-- What one invocation of `run` produces: the final contents of the shared
output buffer, the responses pushed through `report_output` /
`report_errors` in order, and the trace of engine events. -/
structure RunOutput where
  buffer : String
  responses : List RunResult
  events : List EngineEvent
deriving DecidableEq

/-- `run` (`runner.rs` lines 32-159), at the granularity of the claims.
The function unconditionally builds the builtin registry, creates a fresh
`Vm` and interprets the bootstrap chunk (lines 40-119), then parses,
resolves and type-checks the user source (lines 121-132).  If
`source.has_no_errors()` (line 134) it generates the user chunk, interprets
it (printing through `native_println` along the way), appends and delivers
the runtime-error line when the result is `RuntimeError` (lines 142-147),
and finally appends and delivers the `[INFO]` timing line (lines 149-154).
Otherwise it reports the formatted diagnostics through `report_errors`
(lines 155-158) and nothing else.  Weak-reference upgrade attempts are
numbered: attempt `k` for the k-th `println`, attempt `n` for the
runtime-error delivery and attempt `n + 1` for the final delivery, where
`n` is the number of `println` calls. -/
def run (env : RunEnv) : RunOutput :=
  if env.hasNoErrors then
    let pcr := printlnCalls env.printlnArgs env.aliveAt 0 ""
    let n := env.printlnArgs.length
    let er :=
      match env.result with
      | InterpretResult.Ok => (pcr.1, ([] : List String))
      | InterpretResult.RuntimeError msg line =>
        let b := pcr.1 ++ ("runtime error: " ++ (msg ++ ("\n   --> repl:" ++ (toString line ++ "\n"))))
        (b, if env.aliveAt n then [b] else [])
    let buf3 := er.1 ++ ("[INFO] Execution finished in " ++ (env.durationStr ++ " seconds\n"))
    let outs3 := if env.aliveAt (n + 1) then [buf3] else []
    { buffer := buf3
      responses := (pcr.2 ++ (er.2 ++ outs3)).map RunResult.Stdout
      events := [EngineEvent.vmCreated, EngineEvent.bootstrapInterpreted,
                 EngineEvent.userCodegen, EngineEvent.userInterpreted] }
  else
    { buffer := ""
      responses := [RunResult.Error env.errorsString]
      events := [EngineEvent.vmCreated, EngineEvent.bootstrapInterpreted] }

/-- The request enum received by the worker (`runner.rs` lines 161-164). -/
inductive Request where
  | ExecuteCode (source : String)

/-- The `Runner` agent state (`runner.rs` lines 166-169): it stores only
its `AgentLink` (modelled as `Unit`); in particular it holds no VM, no
resolve result and no other engine state between requests. -/
structure Runner where
  link : Unit

/-- `Runner::handle_input` (`runner.rs` lines 189-206): on
`Request::ExecuteCode` it wraps `report_output` / `report_errors` around
`self.link.respond` and calls `run`.  The black-box outcomes of that run
are supplied by `env`.  The agent state is returned alongside the run
output; the source mutates none of its fields. -/
def Runner.handle_input (r : Runner) (msg : Request) (env : RunEnv) :
    Runner × RunOutput :=
  match msg with
  | Request.ExecuteCode _ => (r, run env)

/-- The engine events of a whole worker session: `handle_input` calls
`run` once per `ExecuteCode` request, so the session trace is the
concatenation of the per-request traces. -/
def sessionEvents (envs : List RunEnv) : List EngineEvent :=
  (envs.map fun env => (run env).events).flatten

/-- Modelled from the spec: the symbol table inside
`ella_passes::resolve::ResolveResult` (external crate), as an ordered list
of global symbol names; the slot of a symbol is its index in the list.
`Resolver::resolve_builtin_vars` assigns consecutive slots to the builtins
in registration order. -/
def resolve_builtin_vars (bv : BuiltinVars) : List String :=
  bv.map fun e => e.1

/-- Modelled from the spec: `Resolver::new_with_existing_resolve_result`
followed by `resolve_top_level` (external crate): the new resolver starts
from the retained result and only appends the new top-level symbols;
existing slot indices are never renumbered. -/
def resolve_top_level (existing : List String) (topLevel : List String) : List String :=
  existing ++ topLevel

/-- The resolve result retained from the bootstrap pass of `run`
(`runner.rs` lines 107-110). -/
def bootstrapResolveResult : List String :=
  resolve_builtin_vars runnerBuiltinVars

/-- The resolve result after the user pass of `run` (`runner.rs` lines
124-126), for a user program whose top-level declarations are
`topLevel`. -/
def userResolveResult (topLevel : List String) : List String :=
  resolve_top_level bootstrapResolveResult topLevel

/-- Modelled from the spec: the judgments inside
`ella_passes::type_checker::TypeCheckResult` (external crate), as an
ordered list of (symbol, type) entries aligned with the resolve slots. -/
def type_check_builtin_vars (bv : BuiltinVars) : List (String × Ty) :=
  bv.map fun e => (e.1, e.2.2)

/-- The type-check result retained from the bootstrap pass of `run`
(`runner.rs` lines 112-114). -/
def bootstrapTypeCheckResult : List (String × Ty) :=
  type_check_builtin_vars runnerBuiltinVars

/-- Modelled from the spec: `TypeChecker::new_with_type_check_result`
followed by `type_check_global` (`runner.rs` lines 128-131): the user pass
extends the retained bootstrap result with the judgments for the new
top-level symbols. -/
def userTypeCheckResult (newJudgments : List (String × Ty)) : List (String × Ty) :=
  bootstrapTypeCheckResult ++ newJudgments

/-! ### Concrete run environments used as test inputs -/

/-- A trivially successful run: no diagnostics, no `println` calls, user
chunk interprets to `Ok`, the delivery callback stays alive. -/
def cenvC1 : RunEnv :=
  { hasNoErrors := true, errorsString := "", printlnArgs := [],
    result := InterpretResult.Ok, aliveAt := fun _ => true, durationStr := "0.001" }

/-- A run whose user chunk raises a runtime error on line 1. -/
def cenvC2 : RunEnv :=
  { hasNoErrors := true, errorsString := "", printlnArgs := [],
    result := InterpretResult.RuntimeError "division by zero" 1,
    aliveAt := fun _ => true, durationStr := "0.001" }

/-- A submission whose source accumulated a diagnostic during the user
compile phase. -/
def cenvC3 : RunEnv :=
  { hasNoErrors := false, errorsString := "1:5: error: unresolved symbol",
    printlnArgs := [], result := InterpretResult.Ok,
    aliveAt := fun _ => true, durationStr := "0.001" }

/-- A run whose user chunk raises a runtime error on line 2. -/
def cenvC4 : RunEnv :=
  { hasNoErrors := true, errorsString := "", printlnArgs := [],
    result := InterpretResult.RuntimeError "assert failed" 2,
    aliveAt := fun _ => true, durationStr := "0.002" }

/-- A successful run that printed one value. -/
def cenvC4ok : RunEnv :=
  { hasNoErrors := true, errorsString := "", printlnArgs := [Value.Number 2],
    result := InterpretResult.Ok, aliveAt := fun _ => true, durationStr := "1.234" }

/-! ### Helper notions and lemmas -/

/-- `StrPre a b`: the string `a` is an initial segment of the string `b`. -/
def StrPre (a b : String) : Prop := ∃ t, b = a ++ t

theorem StrPre.refl (a : String) : StrPre a a :=
  ⟨"", (String.append_empty a).symm⟩

theorem StrPre.append (a b : String) : StrPre a (a ++ b) :=
  ⟨b, rfl⟩

theorem StrPre.trans {a b c : String} (h₁ : StrPre a b) (h₂ : StrPre b c) :
    StrPre a c := by
  obtain ⟨s, hs⟩ := h₁
  obtain ⟨t, ht⟩ := h₂
  exact ⟨s ++ t, by rw [ht, hs, String.append_assoc]⟩

/-- Invariants of the `println` call sequence: the buffer only grows, every
delivered text extends the initial buffer and is extended by the final
buffer, and the delivered texts form a prefix chain in delivery order. -/
theorem printlnCalls_spec (vs : List Value) :
    ∀ (aliveAt : Nat → Bool) (k : Nat) (buf : String),
      StrPre buf (printlnCalls vs aliveAt k buf).1 ∧
      (∀ d ∈ (printlnCalls vs aliveAt k buf).2,
        StrPre buf d ∧ StrPre d (printlnCalls vs aliveAt k buf).1) ∧
      ((printlnCalls vs aliveAt k buf).2).Pairwise StrPre := by
  induction vs with
  | nil =>
    intro aliveAt k buf
    refine ⟨StrPre.refl buf, ?_, ?_⟩
    · intro d hd; simp [printlnCalls] at hd
    · simp [printlnCalls]
  | cons v vs ih =>
    intro aliveAt k buf
    have step : StrPre buf (buf ++ ("[STDOUT] " ++ (fmtValue v ++ "\n"))) :=
      StrPre.append _ _
    obtain ⟨ih1, ih2, ih3⟩ := ih aliveAt (k + 1) (buf ++ ("[STDOUT] " ++ (fmtValue v ++ "\n")))
    by_cases h : aliveAt k = true
    · refine ⟨?_, ?_, ?_⟩
      · simpa [printlnCalls, h] using step.trans ih1
      · intro d hd
        simp [printlnCalls, h] at hd ⊢
        rcases hd with hd | hd
        · subst hd; exact ⟨step, ih1⟩
        · exact ⟨step.trans (ih2 d hd).1, (ih2 d hd).2⟩
      · simp only [printlnCalls, h, if_true]
        exact List.Pairwise.cons (fun d hd => (ih2 d hd).1) ih3
    · rw [Bool.not_eq_true] at h
      refine ⟨?_, ?_, ?_⟩
      · simpa [printlnCalls, h] using step.trans ih1
      · intro d hd
        simp [printlnCalls, h] at hd ⊢
        exact ⟨step.trans (ih2 d hd).1, (ih2 d hd).2⟩
      · simpa [printlnCalls, h] using ih3

/-- The final buffer produced by the `println` call sequence does not
depend on the liveness of the delivery callback, nor on the numbering of
the upgrade attempts: appends happen regardless of delivery. -/
theorem printlnCalls_fst_independent (vs : List Value) :
    ∀ (a₁ a₂ : Nat → Bool) (k₁ k₂ : Nat) (buf : String),
      (printlnCalls vs a₁ k₁ buf).1 = (printlnCalls vs a₂ k₂ buf).1 := by
  induction vs with
  | nil => intro a₁ a₂ k₁ k₂ buf; rfl
  | cons v vs ih =>
    intro a₁ a₂ k₁ k₂ buf
    simp only [printlnCalls]
    by_cases h₁ : a₁ k₁ = true <;> by_cases h₂ : a₂ k₂ = true <;>
      simp [h₁, h₂, ih a₁ a₂ (k₁ + 1) (k₂ + 1)]

/-- Counting `vmCreated` events over a session: one per request. -/
theorem sessionEvents_count_vmCreated (envs : List RunEnv) :
    (sessionEvents envs).count EngineEvent.vmCreated = envs.length := by
  induction envs with
  | nil => simp [sessionEvents]
  | cons env envs ih =>
    have hone : (run env).events.count EngineEvent.vmCreated = 1 := by
      by_cases h : env.hasNoErrors = true
      · simp only [run, h, if_true]
        decide
      · rw [Bool.not_eq_true] at h
        simp only [run, h, Bool.false_eq_true, if_false]
        decide
    simp only [sessionEvents, List.map_cons, List.flatten_cons, List.count_append,
      List.length_cons]
    rw [hone]
    simp only [sessionEvents] at ih
    rw [ih]
    omega

/-- Responses produced through `report_output` are all `Stdout`; filtering
them for errors yields nothing. -/
theorem filter_isError_map_stdout (l : List String) :
    (l.map RunResult.Stdout).filter RunResult.isError = [] := by
  induction l with
  | nil => rfl
  | cons a l ih => simp [RunResult.isError, ih]

/-- Extracting the `Stdout` texts from a list of `Stdout` responses
recovers the underlying texts. -/
theorem filterMap_stdoutText_map_stdout (l : List String) :
    (l.map RunResult.Stdout).filterMap RunResult.stdoutText = l := by
  induction l with
  | nil => rfl
  | cons a l ih => simp [RunResult.stdoutText, ih]

/-- Assembling the prefix chain of one run: the `println` deliveries `A`
(all bounded by the buffer value `a`), an optional runtime-error delivery
list `B`, and an optional final delivery list `C`, all bounded by the
final buffer `bfinal`. -/
theorem stdout_chain_assemble (A B C : List String) (a bfinal : String)
    (hA1 : ∀ d ∈ A, StrPre d a) (hA2 : A.Pairwise StrPre)
    (hB : ∀ d ∈ B, StrPre a d ∧ StrPre d bfinal) (hBpw : B.Pairwise StrPre)
    (hC : ∀ d ∈ C, (∀ b ∈ B, StrPre b d) ∧ StrPre a d ∧ StrPre d bfinal)
    (hCpw : C.Pairwise StrPre) (hab : StrPre a bfinal) :
    (A ++ (B ++ C)).Pairwise StrPre ∧
    List.Forall (fun t => StrPre t bfinal) (A ++ (B ++ C)) := by
  constructor
  · rw [List.pairwise_append]
    refine ⟨hA2, ?_, ?_⟩
    · rw [List.pairwise_append]
      refine ⟨hBpw, hCpw, fun b hb c hc => (hC c hc).1 b hb⟩
    · intro x hx y hy
      rcases List.mem_append.mp hy with hy | hy
      · exact (hA1 x hx).trans (hB y hy).1
      · exact (hA1 x hx).trans (hC y hy).2.1
  · rw [List.forall_iff_forall_mem]
    intro t ht
    rcases List.mem_append.mp ht with ht | ht
    · exact (hA1 t ht).trans hab
    · rcases List.mem_append.mp ht with ht | ht
      · exact (hB t ht).2
      · exact (hC t ht).2.2

/-! ### Claims -/

/-- Claim C5: every invocation of the native `println` closure appends
`[STDOUT] {value}` and a newline to the shared buffer; when the weak
delivery reference upgrades, the callback receives the entire current
buffer contents (not a delta); when it has expired the append still
happens, nothing is delivered and no error is raised; moreover the buffer
produced by a whole sequence of `println` calls is independent of callback
liveness. -/
theorem C5_println_append_and_delivery (arg : Value) (rest : List Value)
    (output : String) (vs : List Value) (a₁ a₂ : Nat → Bool) (k₁ k₂ : Nat)
    (buf : String) :
    native_println (arg :: rest) output true =
      some (output ++ ("[STDOUT] " ++ (fmtValue arg ++ "\n")),
            some (output ++ ("[STDOUT] " ++ (fmtValue arg ++ "\n"))),
            Value.Bool true) ∧
    native_println (arg :: rest) output false =
      some (output ++ ("[STDOUT] " ++ (fmtValue arg ++ "\n")), none,
            Value.Bool true) ∧
    (printlnCalls vs a₁ k₁ buf).1 = (printlnCalls vs a₂ k₂ buf).1 :=
  ⟨rfl, rfl, printlnCalls_fst_independent vs a₁ a₂ k₁ k₂ buf⟩

/-- Claim C9: the native `println` closure returns `Value::Bool(true)` for
every argument value and regardless of callback liveness. -/
theorem C9_println_returns_true (arg : Value) (rest : List Value)
    (output : String) (alive : Bool) :
    (native_println (arg :: rest) output alive).map (fun r => r.2.2) =
      some (Value.Bool true) := rfl

/-- Claim C10: `native_println` reads `args[0]` unconditionally; the access
is in-bounds exactly when the VM passes at least one argument, which the
registered arity of 1 for `println` guarantees; on an empty slice the
closure has no defined result. -/
theorem C10_println_arg_access (args : List Value) (output : String)
    (alive : Bool) (h : 1 ≤ args.length) :
    (native_println args output alive).isSome = true ∧
    native_println [] output alive = none ∧
    runnerBuiltinVars.lookup "println" = some (1, Ty.fn [Ty.any] Ty.bool) := by
  refine ⟨?_, rfl, rfl⟩
  cases args with
  | nil => simp at h
  | cons a as => rfl

/-- Witness for C10 at the one-element argument slice `[Bool true]`. -/
theorem C10_witness :
    1 ≤ ([Value.Bool true] : List Value).length ∧
    ((native_println [Value.Bool true] "" true).isSome = true ∧
     native_println [] "" true = none ∧
     runnerBuiltinVars.lookup "println" = some (1, Ty.fn [Ty.any] Ty.bool)) :=
  ⟨by decide, C10_println_arg_access [Value.Bool true] "" true (by decide)⟩

/-- Counterexample to claim C8 as stated: the claim quantifies over the
registry built for each `run`, but the older `run` in `app.rs` (lines
60-61) registers only `println` and `clock`; its registry does not contain
`is_nan` and does not have five entries. -/
theorem C8_counterexample :
    "is_nan" ∉ appBuiltinVars.map Prod.fst ∧ appBuiltinVars.length ≠ 5 := by
  decide

/-- Claim C8 (amended): the registry built by the worker pipeline `run` in
`runner.rs` exposes exactly the five natives `println`, `is_nan`,
`parse_number`, `clock` and `str` with the claimed arities and signatures
and no duplicate names; the older in-app `run` of `app.rs` registers only
`println` (arity 1) and `clock` (arity 0). -/
theorem C8_amended_runner_registry :
    runnerBuiltinVars.map (fun e => e.1) =
      ["println", "is_nan", "parse_number", "clock", "str"] ∧
    (runnerBuiltinVars.map (fun e => e.1)).Nodup ∧
    runnerBuiltinVars.lookup "println" = some (1, Ty.fn [Ty.any] Ty.bool) ∧
    runnerBuiltinVars.lookup "clock" = some (0, Ty.fn [] Ty.number) ∧
    runnerBuiltinVars.lookup "is_nan" = some (1, Ty.fn [Ty.number] Ty.bool) ∧
    runnerBuiltinVars.lookup "parse_number" = some (1, Ty.fn [Ty.any] Ty.number) ∧
    runnerBuiltinVars.lookup "str" = some (1, Ty.fn [Ty.any] Ty.string) ∧
    appBuiltinVars.map Prod.fst = ["println", "clock"] :=
  ⟨rfl, by decide, rfl, rfl, rfl, rfl, rfl, rfl⟩

/-- Claim C6: the `ResolveResult` and `TypeCheckResult` of the bootstrap
pass are threaded into the user pass: the user resolver starts from the
retained bootstrap result, top-level symbols are only appended, and every
builtin slot index assigned during bootstrap denotes the same symbol in
the user-pass result. -/
theorem C6_bootstrap_results_threaded (topLevel : List String)
    (newJudgments : List (String × Ty)) (i : Nat)
    (h : i < bootstrapResolveResult.length) :
    bootstrapResolveResult <+: userResolveResult topLevel ∧
    (userResolveResult topLevel)[i]? = bootstrapResolveResult[i]? ∧
    bootstrapTypeCheckResult <+: userTypeCheckResult newJudgments := by
  refine ⟨⟨topLevel, rfl⟩, ?_, ⟨newJudgments, rfl⟩⟩
  rw [userResolveResult, resolve_top_level, List.getElem?_append, if_pos h]

/-- Witness for C6: slot 0 (the `println` builtin) survives a user pass
that declares one new symbol. -/
theorem C6_witness :
    0 < bootstrapResolveResult.length ∧
    (bootstrapResolveResult <+: userResolveResult ["x"] ∧
     (userResolveResult ["x"])[0]? = bootstrapResolveResult[0]? ∧
     bootstrapTypeCheckResult <+: userTypeCheckResult []) :=
  ⟨by decide, C6_bootstrap_results_threaded ["x"] [] 0 (by decide)⟩

/-- Claim C3: a submission whose source has any diagnostic after the user
compile phase skips code generation and VM execution entirely, emits no
`Stdout` response, and emits exactly one `Error` response carrying the
formatted diagnostics. -/
theorem C3_compile_error_short_circuit (env : RunEnv)
    (h : env.hasNoErrors = false) :
    (run env).responses = [RunResult.Error env.errorsString] ∧
    (run env).events = [EngineEvent.vmCreated, EngineEvent.bootstrapInterpreted] := by
  simp [run, h]

/-- Witness for C3 at a concrete failing submission. -/
theorem C3_witness :
    cenvC3.hasNoErrors = false ∧
    ((run cenvC3).responses = [RunResult.Error cenvC3.errorsString] ∧
     (run cenvC3).events = [EngineEvent.vmCreated, EngineEvent.bootstrapInterpreted]) :=
  ⟨rfl, C3_compile_error_short_circuit cenvC3 rfl⟩

/-- Counterexample to claim C1 as stated: the bootstrap is not performed
once per worker session.  `Runner::handle_input` calls `run` for every
`ExecuteCode` request and `run` performs `Vm::new` unconditionally
(`runner.rs` line 116), so a session of two requests creates the engine
twice, and the agent state retains nothing from a request (it stores only
its link), so no engine can be reused by the next request. -/
theorem C1_counterexample :
    (sessionEvents [cenvC1, cenvC1]).count EngineEvent.vmCreated = 2 ∧
    (Runner.handle_input ⟨()⟩ (Request.ExecuteCode "let x = 1;") cenvC1).1 = ⟨()⟩ := by
  exact ⟨by decide, rfl⟩

/-- Claim C1 (amended): the builtin bootstrap is performed exactly once
per `ExecuteCode` request, before that request's user chunk, but each
request constructs a fresh `ExecutionEngine`: the `Runner` agent state is
unchanged by `handle_input`, every run's engine trace starts with
`vmCreated` followed by `bootstrapInterpreted`, each run creates exactly
one engine, and a session of `n` requests creates `n` engines — so a
global declared by one run is not visible to later runs. -/
theorem C1_amended_fresh_engine_per_request (r : Runner) (msg : Request)
    (env : RunEnv) (envs : List RunEnv) :
    (Runner.handle_input r msg env).1 = r ∧
    (run env).events.take 2 =
      [EngineEvent.vmCreated, EngineEvent.bootstrapInterpreted] ∧
    (run env).events.count EngineEvent.vmCreated = 1 ∧
    (sessionEvents envs).count EngineEvent.vmCreated = envs.length := by
  have h2 : (run env).events.take 2 =
      [EngineEvent.vmCreated, EngineEvent.bootstrapInterpreted] ∧
      (run env).events.count EngineEvent.vmCreated = 1 := by
    by_cases h : env.hasNoErrors = true
    · simp only [run, h, if_true]
      exact ⟨rfl, by decide⟩
    · rw [Bool.not_eq_true] at h
      simp only [run, h, Bool.false_eq_true, if_false]
      exact ⟨rfl, by decide⟩
  refine ⟨?_, h2.1, h2.2, sessionEvents_count_vmCreated envs⟩
  cases msg with
  | ExecuteCode s => rfl

/-- Counterexample to claim C2 as stated: a user chunk ending in
`InterpretResult::RuntimeError` produces no `Error` response at all.
`runner.rs` lines 142-147 only append the runtime-error line to the buffer
and deliver it through `report_output`, i.e. as `Stdout`; `report_errors`
is never called on that path. -/
theorem C2_counterexample :
    (run cenvC2).responses.filter RunResult.isError = [] ∧
    (run cenvC2).responses =
      [RunResult.Stdout "runtime error: division by zero\n   --> repl:1\n",
       RunResult.Stdout
         "runtime error: division by zero\n   --> repl:1\n[INFO] Execution finished in 0.001 seconds\n"] := by
  exact ⟨by decide, by decide⟩

/-- Claim C2 (amended): for every execution of a user chunk that ends in
`InterpretResult::RuntimeError \x7b message, line \x7d`, the pipeline
appends `runtime error: {message}` and `   --> repl:{line}` to the output
transcript and delivers the transcript through a `Stdout` response; no
`Error` response is emitted on that path (the run then proceeds to the
timing line as on normal completion). -/
theorem C2_amended_runtime_error_stdout_only (env : RunEnv) (msg : String)
    (line : Nat) (h1 : env.hasNoErrors = true)
    (h2 : env.result = InterpretResult.RuntimeError msg line)
    (h3 : env.aliveAt env.printlnArgs.length = true) :
    RunResult.Stdout ((printlnCalls env.printlnArgs env.aliveAt 0 "").1 ++
      ("runtime error: " ++ (msg ++ ("\n   --> repl:" ++ (toString line ++ "\n")))))
      ∈ (run env).responses ∧
    (run env).responses.filter RunResult.isError = [] := by
  simp only [run, h1, if_true, h2, h3]
  refine ⟨List.mem_map_of_mem _ ?_, filter_isError_map_stdout _⟩
  simp

/-- Witness for C2 (amended) at a concrete runtime-error run. -/
theorem C2_witness :
    (cenvC2.hasNoErrors = true ∧
     cenvC2.result = InterpretResult.RuntimeError "division by zero" 1 ∧
     cenvC2.aliveAt cenvC2.printlnArgs.length = true) ∧
    (RunResult.Stdout ((printlnCalls cenvC2.printlnArgs cenvC2.aliveAt 0 "").1 ++
       ("runtime error: " ++ ("division by zero" ++
         ("\n   --> repl:" ++ (toString (1 : Nat) ++ "\n")))))
       ∈ (run cenvC2).responses ∧
     (run cenvC2).responses.filter RunResult.isError = []) :=
  ⟨⟨rfl, rfl, rfl⟩,
   C2_amended_runtime_error_stdout_only cenvC2 "division by zero" 1 rfl rfl rfl⟩

/-- Counterexample to claim C4 as stated: the `[INFO] Execution finished`
line is also produced on the runtime-error path.  In `runner.rs` the
append at lines 149-154 is outside the `if let RuntimeError` block, so a
run whose user chunk raised a runtime error still appends and delivers the
timing line as its final delivery. -/
theorem C4_counterexample :
    (run cenvC4).responses.getLast? =
      some (RunResult.Stdout
        "runtime error: assert failed\n   --> repl:2\n[INFO] Execution finished in 0.002 seconds\n") ∧
    (run cenvC4).buffer =
      "runtime error: assert failed\n   --> repl:2\n[INFO] Execution finished in 0.002 seconds\n" := by
  exact ⟨by decide, by decide⟩

/-- Claim C4 (amended): whenever compilation succeeded (so the user chunk
was executed) and the delivery callback is alive at the final upgrade
attempt, the line `[INFO] Execution finished in {duration:.3} seconds` is
appended to the buffer and flushed as the final delivery of the run — on
the success path and on the runtime-error path alike. -/
theorem C4_amended_info_line_on_every_executed_run (env : RunEnv)
    (h1 : env.hasNoErrors = true)
    (h2 : env.aliveAt (env.printlnArgs.length + 1) = true) :
    (run env).responses.getLast? = some (RunResult.Stdout (run env).buffer) ∧
    ∃ p, (run env).buffer =
      p ++ ("[INFO] Execution finished in " ++ (env.durationStr ++ " seconds\n")) := by
  simp only [run, h1, if_true, h2]
  constructor
  · rw [List.getLast?_map, ← List.append_assoc, List.getLast?_concat]
    rfl
  · exact ⟨_, rfl⟩

/-- Witness for C4 (amended) at a concrete successful run. -/
theorem C4_witness :
    (cenvC4ok.hasNoErrors = true ∧
     cenvC4ok.aliveAt (cenvC4ok.printlnArgs.length + 1) = true) ∧
    ((run cenvC4ok).responses.getLast? =
       some (RunResult.Stdout (run cenvC4ok).buffer) ∧
     ∃ p, (run cenvC4ok).buffer =
       p ++ ("[INFO] Execution finished in " ++ (cenvC4ok.durationStr ++ " seconds\n"))) :=
  ⟨⟨rfl, rfl⟩, C4_amended_info_line_on_every_executed_run cenvC4ok rfl rfl⟩

/-- Claim C7: every `Stdout` response of a run carries the full accumulated
transcript at its delivery point and the buffer grows monotonically, so
the `Stdout` texts of one request form a prefix chain (each earlier
delivery is a prefix of each later one) and each is a prefix of the final
buffer. -/
theorem C7_stdout_prefix_chain (env : RunEnv) :
    ((run env).responses.filterMap RunResult.stdoutText).Pairwise StrPre ∧
    List.Forall (fun t => StrPre t (run env).buffer)
      ((run env).responses.filterMap RunResult.stdoutText) := by
  obtain ⟨hfst, hall, hpw⟩ :=
    printlnCalls_spec env.printlnArgs env.aliveAt 0 ""
  by_cases h : env.hasNoErrors = true
  · simp only [run, h, if_true, filterMap_stdoutText_map_stdout]
    cases hres : env.result with
    | Ok =>
      simp only [hres]
      by_cases hc : env.aliveAt (env.printlnArgs.length + 1) = true
      · simp only [hc, if_true]
        refine stdout_chain_assemble _ [] _ _ _
          (fun d hd => (hall d hd).2) hpw
          (fun d hd => absurd hd (List.not_mem_nil d)) List.Pairwise.nil
          (fun d hd => ?_) ?_ (StrPre.append _ _)
        · rcases List.mem_singleton.mp hd with rfl
          exact ⟨fun b hb => absurd hb (List.not_mem_nil b),
                 StrPre.append _ _, StrPre.refl _⟩
        · exact List.pairwise_singleton _ _
      · rw [Bool.not_eq_true] at hc
        simp only [hc, Bool.false_eq_true, if_false]
        refine stdout_chain_assemble _ [] [] _ _
          (fun d hd => (hall d hd).2) hpw
          (fun d hd => absurd hd (List.not_mem_nil d)) List.Pairwise.nil
          (fun d hd => absurd hd (List.not_mem_nil d)) List.Pairwise.nil
          (StrPre.append _ _)
    | RuntimeError msg line =>
      simp only [hres]
      by_cases hb : env.aliveAt env.printlnArgs.length = true
      · by_cases hc : env.aliveAt (env.printlnArgs.length + 1) = true
        · simp only [hb, hc, if_true]
          refine stdout_chain_assemble _ _ _ _ _
            (fun d hd => (hall d hd).2) hpw
            (fun d hd => ?_) (List.pairwise_singleton _ _)
            (fun d hd => ?_) (List.pairwise_singleton _ _)
            ((StrPre.append _ _).trans (StrPre.append _ _))
          · rcases List.mem_singleton.mp hd with rfl
            exact ⟨StrPre.append _ _, StrPre.append _ _⟩
          · rcases List.mem_singleton.mp hd with rfl
            refine ⟨fun b hbm => ?_, (StrPre.append _ _).trans (StrPre.append _ _),
                    StrPre.refl _⟩
            rcases List.mem_singleton.mp hbm with rfl
            exact StrPre.append _ _
        · rw [Bool.not_eq_true] at hc
          simp only [hb, hc, if_true, Bool.false_eq_true, if_false]
          refine stdout_chain_assemble _ _ [] _ _
            (fun d hd => (hall d hd).2) hpw
            (fun d hd => ?_) (List.pairwise_singleton _ _)
            (fun d hd => absurd hd (List.not_mem_nil d)) List.Pairwise.nil
            ((StrPre.append _ _).trans (StrPre.append _ _))
          rcases List.mem_singleton.mp hd with rfl
          exact ⟨StrPre.append _ _, StrPre.append _ _⟩
      · rw [Bool.not_eq_true] at hb
        by_cases hc : env.aliveAt (env.printlnArgs.length + 1) = true
        · simp only [hb, hc, if_true, Bool.false_eq_true, if_false]
          refine stdout_chain_assemble _ [] _ _ _
            (fun d hd => (hall d hd).2) hpw
            (fun d hd => absurd hd (List.not_mem_nil d)) List.Pairwise.nil
            (fun d hd => ?_) (List.pairwise_singleton _ _)
            ((StrPre.append _ _).trans (StrPre.append _ _))
          rcases List.mem_singleton.mp hd with rfl
          exact ⟨fun b hbm => absurd hbm (List.not_mem_nil b),
                 (StrPre.append _ _).trans (StrPre.append _ _), StrPre.refl _⟩
        · rw [Bool.not_eq_true] at hc
          simp only [hb, hc, Bool.false_eq_true, if_false]
          refine stdout_chain_assemble _ [] [] _ _
            (fun d hd => (hall d hd).2) hpw
            (fun d hd => absurd hd (List.not_mem_nil d)) List.Pairwise.nil
            (fun d hd => absurd hd (List.not_mem_nil d)) List.Pairwise.nil
            ((StrPre.append _ _).trans (StrPre.append _ _))
  · rw [Bool.not_eq_true] at h
    simp only [run, h, Bool.false_eq_true, if_false]
    exact ⟨by simp [RunResult.stdoutText], by simp [RunResult.stdoutText]⟩

end Ella
